import Mathlib

/-!
# Shallow embedding of the `vibecoding-rust-scheduler` data model

This file embeds the task/schedule/accountability model of the Rust
scheduler (`src/models/{task,schedule,accountability,stats,pomodoro}.rs`)
and proves the specification claims about it.

Modelling conventions:
* `chrono::DateTime<Local>` instants are modelled as `Int` at whole-minute
  resolution, so `(end - start).num_minutes()` is plain integer
  subtraction.  `Local::now()` is modelled by passing the current instant
  explicitly to the operations that read the clock.
* Rust `i64` values are modelled as `Int`; the one place where `i64`
  overflow semantics matter (`i64::saturating_sub` in
  `TimeAccountability::from_task`) is modelled explicitly with saturation
  at the `i64` bounds.
* Rust `u32` values are modelled as `Nat`; the `as u32` cast of a
  nonnegative `f64` saturates (negatives to `0`, values above `2^32 - 1`
  to `2^32 - 1`) and is modelled accordingly.
* `f64` arithmetic on exact integer inputs (`completion_rate`,
  `efficiency_score`, the pomodoro ceiling division, streak thresholds)
  is modelled with exact rational arithmetic `ℚ`; for the magnitudes the
  program manipulates (minute counts far below `2^53`) the `f64`
  computations are exact, so the rational model is faithful there.
* `Uuid::new_v4()` is modelled by passing the fresh id as a parameter.
-/

namespace VibeScheduler

/-- Rust `TaskStatus` from `src/models/task.rs`. -/
inductive TaskStatus where
  | Pending
  | InProgress
  | Completed
  | Paused
  | Skipped
deriving DecidableEq, Repr

/-- Rust `PomodoroSession` from `src/models/pomodoro.rs` (all `u32` counters as
`Nat`, the optional start instant as `Option Int`). -/
structure PomodoroSession where
  total_pomodoros : Nat
  completed_pomodoros : Nat
  current_start : Option Int
  pomodoro_duration : Nat
  short_break : Nat
  long_break : Nat
deriving DecidableEq, Repr

/-- Rust `PomodoroSession::new` from `src/models/pomodoro.rs`: the estimate is
ignored, `total_pomodoros` starts at 1 and is recomputed by
`Task::start`. -/
def PomodoroSession.new (_estimated_minutes : Int) : PomodoroSession :=
  { total_pomodoros := 1
    completed_pomodoros := 0
    current_start := none
    pomodoro_duration := 25
    short_break := 5
    long_break := 15 }

/-- Rust `PomodoroSession::start_pomodoro`: records `now` as the active slice's
start. -/
def PomodoroSession.start_pomodoro (s : PomodoroSession) (now : Int) :
    PomodoroSession :=
  { s with current_start := some now }

/-- Rust `Task` from `src/models/task.rs`. -/
structure Task where
  id : String
  title : String
  start_time : Int
  end_time : Int
  estimated_duration_minutes : Int
  actual_duration_minutes : Option Int
  status : TaskStatus
  tags : List String
  notes : Option String
  actual_start_time : Option Int
  actual_end_time : Option Int
  custom_pomodoro_duration : Option Nat
  pomodoro : Option PomodoroSession
deriving DecidableEq, Repr

/-- Rust `Task::new`: the random UUID is passed in as `id`; the estimate is
`(end_time - start_time).num_minutes()`, i.e. the minute difference. -/
def Task.new (id title : String) (start_time end_time : Int) : Task :=
  { id := id
    title := title
    start_time := start_time
    end_time := end_time
    estimated_duration_minutes := end_time - start_time
    actual_duration_minutes := none
    status := TaskStatus.Pending
    tags := []
    notes := none
    actual_start_time := none
    actual_end_time := none
    custom_pomodoro_duration := none
    pomodoro := none }

/-- Models `((x as f64 / d as f64).ceil() as u32)` from `Task::start`
(line 107 of `src/models/task.rs`) by exact rational ceiling division.
The `as u32` cast saturates: negative results go to `0` (via
`Int.toNat`), results above `2^32 - 1` are clamped.  For `1 ≤ d` and
`|x| < 2^53` the `f64` division and `ceil` are exact, so this model is
faithful on the program's full operating range. -/
def ceilDivF64asU32 (x : Int) (d : Nat) : Nat :=
  min (Int.toNat (Int.ceil ((x : ℚ) / (d : ℚ)))) (2 ^ 32 - 1)

/-- Rust `Task::start` from `src/models/task.rs`: unconditionally sets the
status to `InProgress` and `actual_start_time` to `now`; then, if no
pomodoro session exists, builds one (recomputing `total_pomodoros` as
`ceil(estimated / pomodoro_duration).max(1)` with the custom duration
defaulting to 25) and starts it, otherwise merely restarts the existing
session's active slice. -/
def Task.start (t : Task) (now : Int) : Task :=
  let t := { t with status := TaskStatus.InProgress
                    actual_start_time := some now }
  match t.pomodoro with
  | none =>
      let pomodoro_duration := t.custom_pomodoro_duration.getD 25
      let session := PomodoroSession.new t.estimated_duration_minutes
      let session :=
        { session with
            pomodoro_duration := pomodoro_duration
            total_pomodoros :=
              max (ceilDivF64asU32 t.estimated_duration_minutes
                    pomodoro_duration) 1 }
      let session := session.start_pomodoro now
      { t with pomodoro := some session }
  | some session =>
      { t with pomodoro := some (session.start_pomodoro now) }

/-- Rust `Task::pause`: only acts when the status is `InProgress`; then flips
to `Paused` and clears the session's `current_start`. -/
def Task.pause (t : Task) : Task :=
  if t.status = TaskStatus.InProgress then
    { t with status := TaskStatus.Paused
             pomodoro := t.pomodoro.map (fun s => { s with current_start := none }) }
  else t

/-- Rust `Task::resume`: only acts when the status is `Paused`; then flips to
`InProgress` and restarts the session's active slice at `now`. -/
def Task.resume (t : Task) (now : Int) : Task :=
  if t.status = TaskStatus.Paused then
    { t with status := TaskStatus.InProgress
             pomodoro := t.pomodoro.map (fun s => s.start_pomodoro now) }
  else t

/-- Rust `Task::complete`: unconditionally sets `Completed` and
`actual_end_time = now`; computes `actual_duration_minutes` only when
`actual_start_time` is present. -/
def Task.complete (t : Task) (now : Int) : Task :=
  let t := { t with status := TaskStatus.Completed
                    actual_end_time := some now }
  match t.actual_start_time with
  | some start => { t with actual_duration_minutes := some (now - start) }
  | none => t

/-- Rust `Task::skip`: sets the status to `Skipped` and nothing else. -/
def Task.skip (t : Task) : Task :=
  { t with status := TaskStatus.Skipped }

/-- Rust `i64::saturating_sub`: subtraction clamped to the `i64` range
(`-2^63` to `2^63 - 1`), NOT to zero. -/
def i64_saturating_sub (a b : Int) : Int :=
  max (min (a - b) (2 ^ 63 - 1)) (-(2 ^ 63))

/-- Rust `TimeAccountability` from `src/models/accountability.rs`. -/
structure TimeAccountability where
  earned_time : Int
  wasted_time : Int
  bonus_time : Int
  penalty_time : Int
deriving DecidableEq, Repr

/-- Rust `TimeAccountability::from_task` from `src/models/accountability.rs`:
classifies a task snapshot into earned/wasted/bonus/penalty minutes.
In the overrun branch the source computes
`estimated.saturating_sub(penalty)` on `i64`. -/
def TimeAccountability.from_task (task : Task) : TimeAccountability :=
  let estimated := task.estimated_duration_minutes
  match task.status with
  | TaskStatus.Completed =>
      match task.actual_duration_minutes with
      | some actual =>
          if actual ≤ estimated then
            { earned_time := estimated
              wasted_time := 0
              bonus_time := estimated - actual
              penalty_time := 0 }
          else
            let penalty := actual - estimated
            { earned_time := i64_saturating_sub estimated penalty
              wasted_time := 0
              bonus_time := 0
              penalty_time := penalty }
      | none =>
          { earned_time := estimated
            wasted_time := 0
            bonus_time := 0
            penalty_time := 0 }
  | TaskStatus.Skipped =>
      { earned_time := 0
        wasted_time := estimated
        bonus_time := 0
        penalty_time := 0 }
  | _ =>
      { earned_time := 0
        wasted_time := 0
        bonus_time := 0
        penalty_time := 0 }

/-- Rust `DailyAccountability` from `src/models/accountability.rs`. -/
structure DailyAccountability where
  date : Int
  total_planned : Int
  total_earned : Int
  total_wasted : Int
  total_bonus : Int
  total_penalty : Int
deriving DecidableEq, Repr

/-- Rust `DailyAccountability::new`: all totals zero. -/
def DailyAccountability.new (date : Int) : DailyAccountability :=
  { date := date
    total_planned := 0
    total_earned := 0
    total_wasted := 0
    total_bonus := 0
    total_penalty := 0 }

/-- Loop body of `DailyAccountability::from_tasks`: accumulate one task's
planned estimate and its four `from_task` classifications. -/
def DailyAccountability.accumulate (acc : DailyAccountability) (task : Task) :
    DailyAccountability :=
  let perf := TimeAccountability.from_task task
  { acc with
      total_planned := acc.total_planned + task.estimated_duration_minutes
      total_earned := acc.total_earned + perf.earned_time
      total_wasted := acc.total_wasted + perf.wasted_time
      total_bonus := acc.total_bonus + perf.bonus_time
      total_penalty := acc.total_penalty + perf.penalty_time }

/-- Rust `DailyAccountability::from_tasks`: one pass over the tasks
accumulating the planned estimate and the four `from_task`
classifications. -/
def DailyAccountability.from_tasks (date : Int) (tasks : List Task) :
    DailyAccountability :=
  tasks.foldl DailyAccountability.accumulate (DailyAccountability.new date)

/-- Rust `DailyAccountability::efficiency_score` (an `f64` in the source,
modelled exactly over `ℚ`): `net_earned / total_planned * 100`, or 0 when
nothing was planned. -/
def DailyAccountability.efficiency_score (d : DailyAccountability) : ℚ :=
  if d.total_planned = 0 then 0
  else
    let net_earned := d.total_earned + d.total_bonus - d.total_penalty
    (net_earned : ℚ) / (d.total_planned : ℚ) * 100

/-- Rust `DailyAccountability::grade`: letter grade from the efficiency
score. -/
def DailyAccountability.grade (d : DailyAccountability) : String :=
  let score := d.efficiency_score
  if 95 ≤ score then "A+"
  else if 90 ≤ score then "A"
  else if 80 ≤ score then "B"
  else if 70 ≤ score then "C"
  else if 60 ≤ score then "D"
  else "F"

/-- Rust `ChangeType` from `src/models/schedule.rs`. -/
inductive ChangeType where
  | TaskCreated
  | TaskUpdated
  | TaskDeleted
  | TaskMoved
  | ScheduleShifted
deriving DecidableEq, Repr

/-- Rust `ScheduleChange` from `src/models/schedule.rs` (the descriptive
strings are carried verbatim). -/
structure ScheduleChange where
  timestamp : Int
  change_type : ChangeType
  task_title : Option String
  old_time : Option String
  new_time : Option String
  affected_tasks_count : Option Nat
  description : String
deriving DecidableEq, Repr

/-- Rust `Schedule` from `src/models/schedule.rs`.  The cached/derived fields
share their names with the recomputing methods in Rust; here the fields
carry a `cached_` marker (`cached_total_wasted` is the struct field
`total_wasted`, etc.), the methods keep the source names. -/
structure Schedule where
  date : Int
  tasks : List Task
  changes : List ScheduleChange
  cached_completion_rate : Option ℚ
  cached_efficiency_score : Option ℚ
  cached_total_earned : Option Int
  cached_total_wasted : Option Int
  cached_total_bonus : Option Int
  cached_total_penalty : Option Int
deriving DecidableEq, Repr

/-- Rust `Schedule::new`: empty task list, no cached stats. -/
def Schedule.new (date : Int) : Schedule :=
  { date := date
    tasks := []
    changes := []
    cached_completion_rate := none
    cached_efficiency_score := none
    cached_total_earned := none
    cached_total_wasted := none
    cached_total_bonus := none
    cached_total_penalty := none }

/-- Rust `Schedule::has_time_conflict` from `src/models/schedule.rs`
(lines 345-350): three-disjunct containment/endpoint test on the planned
intervals (`&self` is unused by the source body). -/
def Schedule.has_time_conflict (_s : Schedule) (task1 task2 : Task) : Bool :=
  decide ((task2.start_time ≤ task1.start_time ∧ task1.start_time < task2.end_time)
    ∨ (task2.start_time < task1.end_time ∧ task1.end_time ≤ task2.end_time)
    ∨ (task1.start_time ≤ task2.start_time ∧ task2.end_time ≤ task1.end_time))

/-- Rust `Schedule::add_task`: scans the existing tasks in list order and
rejects on the first one reported by `has_time_conflict`, naming it in
the error message; otherwise pushes the new task at the end. -/
def Schedule.add_task (s : Schedule) (task : Task) : Except String Schedule :=
  match s.tasks.find? (fun existing_task => s.has_time_conflict task existing_task) with
  | some existing_task =>
      Except.error (String.append "Time conflict with task: " existing_task.title)
  | none => Except.ok { s with tasks := s.tasks ++ [task] }

/-- Rust `Schedule::completion_rate` (an `f64`, modelled over `ℚ`): percentage
of tasks whose status is `Completed`, 0 for an empty list. -/
def Schedule.completion_rate (s : Schedule) : ℚ :=
  if s.tasks.isEmpty then 0
  else
    let completed := (s.tasks.filter (fun t => t.status == TaskStatus.Completed)).length
    (completed : ℚ) / (s.tasks.length : ℚ) * 100

/-- Rust `Schedule::total_earned` (the method, lines 251-268): per completed
task, the estimate when on time, otherwise the estimate minus the
overrun, clamped at 0 with `.max(0)`. -/
def Schedule.total_earned (s : Schedule) : Int :=
  ((s.tasks.filter (fun t => t.status == TaskStatus.Completed)).map
    (fun t =>
      let estimated := t.estimated_duration_minutes
      let actual := t.actual_duration_minutes.getD estimated
      if actual ≤ estimated then estimated
      else max (estimated - (actual - estimated)) 0)).sum

/-- Rust `Schedule::total_wasted` (the method, lines 272-292): reads the clock
(`now` passed explicitly here) and sums the full estimate of every
non-completed task whose planned end is already past.  The source's map
returns the estimate in both its `Skipped` and non-`Skipped` branches. -/
def Schedule.total_wasted (s : Schedule) (now : Int) : Int :=
  ((s.tasks.filter
      (fun t => decide (t.status ≠ TaskStatus.Completed ∧ t.end_time < now))).map
    (fun t =>
      if t.status = TaskStatus.Skipped then t.estimated_duration_minutes
      else t.estimated_duration_minutes)).sum

/-- Rust `Schedule::total_bonus`: sum over completed tasks with a recorded
actual duration strictly under the estimate. -/
def Schedule.total_bonus (s : Schedule) : Int :=
  ((s.tasks.filter (fun t => t.status == TaskStatus.Completed)).filterMap
    (fun t =>
      match t.actual_duration_minutes with
      | some actual =>
          if actual < t.estimated_duration_minutes then
            some (t.estimated_duration_minutes - actual)
          else none
      | none => none)).sum

/-- Rust `Schedule::total_penalty`: sum over completed tasks with a recorded
actual duration strictly over the estimate. -/
def Schedule.total_penalty (s : Schedule) : Int :=
  ((s.tasks.filter (fun t => t.status == TaskStatus.Completed)).filterMap
    (fun t =>
      match t.actual_duration_minutes with
      | some actual =>
          if t.estimated_duration_minutes < actual then
            some (actual - t.estimated_duration_minutes)
          else none
      | none => none)).sum

/-- Rust `Schedule::efficiency_score` (the method, an `f64` modelled over
`ℚ`): earned over planned percentage, capped at 100, 0 when nothing is
planned. -/
def Schedule.efficiency_score (s : Schedule) : ℚ :=
  let total_planned := (s.tasks.map (fun t => t.estimated_duration_minutes)).sum
  if total_planned = 0 then 0
  else min ((s.total_earned : ℚ) / (total_planned : ℚ) * 100) 100

/-- Rust `Schedule::calculate_stats` (lines 146-153): stores the recomputed
completion rate, efficiency score, earned, bonus and penalty totals into
the cached fields.  The source deliberately does not store
`total_wasted` (it depends on the clock), so that cached field is left
untouched. -/
def Schedule.calculate_stats (s : Schedule) : Schedule :=
  { s with
      cached_completion_rate := some s.completion_rate
      cached_efficiency_score := some s.efficiency_score
      cached_total_earned := some s.total_earned
      cached_total_bonus := some s.total_bonus
      cached_total_penalty := some s.total_penalty }

/-- Rust `StreakInfo` from `src/models/stats.rs`. -/
structure StreakInfo where
  current_streak : Nat
  best_streak : Nat
  last_update : Int
deriving DecidableEq, Repr

/-- Rust `StreakInfo::new` (`Local::now()` passed explicitly). -/
def StreakInfo.new (now : Int) : StreakInfo :=
  { current_streak := 0, best_streak := 0, last_update := now }

/-- Rust `StreakInfo::update` from `src/models/stats.rs` (the `f64` completion
rate modelled over `ℚ`): a rate of at least 70 extends the streak and
possibly the best streak, anything lower resets the current streak;
`last_update` is always refreshed. -/
def StreakInfo.update (s : StreakInfo) (completion_rate : ℚ) (now : Int) :
    StreakInfo :=
  if 70 ≤ completion_rate then
    let current := s.current_streak + 1
    { current_streak := current
      best_streak := if s.best_streak < current then current else s.best_streak
      last_update := now }
  else
    { s with current_streak := 0, last_update := now }

/-- A sequence of `StreakInfo::update` calls, each with its completion
rate and clock reading. -/
def StreakInfo.run (s : StreakInfo) (l : List (ℚ × Int)) : StreakInfo :=
  l.foldl (fun acc p => acc.update p.1 p.2) s

/-- One lifecycle operation on a task (`start`, `resume` and `complete`
read the clock). -/
inductive TaskOp where
  | start (now : Int)
  | pause
  | resume (now : Int)
  | complete (now : Int)
  | skip
deriving DecidableEq, Repr

/-- Apply one lifecycle operation. -/
def Task.applyOp (t : Task) : TaskOp → Task
  | TaskOp.start now => t.start now
  | TaskOp.pause => t.pause
  | TaskOp.resume now => t.resume now
  | TaskOp.complete now => t.complete now
  | TaskOp.skip => t.skip

/-- Apply a sequence of lifecycle operations left to right. -/
def Task.runOps (t : Task) (ops : List TaskOp) : Task :=
  ops.foldl Task.applyOp t

/-- All intermediate states of a run, the initial state included. -/
def Task.statesAfter (t : Task) (ops : List TaskOp) : List Task :=
  List.scanl Task.applyOp t ops

/-- Whether an operation is a `start` call. -/
def TaskOp.isStart : TaskOp → Bool
  | TaskOp.start _ => true
  | _ => false

/-- Whether a sequence contains a `start` call. -/
def hasStartOp (ops : List TaskOp) : Bool :=
  ops.any TaskOp.isStart

/-- Whether a sequence contains a `complete` call that is preceded by a
`start` call (or happens while a start was already recorded, tracked by
`seen`). -/
def completeAfterStartAux (seen : Bool) : List TaskOp → Bool
  | [] => false
  | op :: rest =>
      match op with
      | TaskOp.start _ => completeAfterStartAux true rest
      | TaskOp.complete _ => seen || completeAfterStartAux seen rest
      | _ => completeAfterStartAux seen rest

/-- Whether a sequence completes at some point after having started. -/
def completeAfterStart (ops : List TaskOp) : Bool :=
  completeAfterStartAux false ops

/-- Modelled from the spec's words (for comparison with
`Schedule::has_time_conflict`): the classic half-open overlap rule
"for intervals [s1,e1) and [s2,e2), they conflict iff s1 < e2 AND
s2 < e1". -/
def specOverlap (t1 t2 : Task) : Prop :=
  t1.start_time < t2.end_time ∧ t2.start_time < t1.end_time

instance (t1 t2 : Task) : Decidable (specOverlap t1 t2) :=
  inferInstanceAs (Decidable (_ ∧ _))

/-- A task whose planned interval is nonempty. -/
def Task.wellFormed (t : Task) : Prop :=
  t.start_time < t.end_time

instance (t : Task) : Decidable t.wellFormed :=
  inferInstanceAs (Decidable (_ < _))

/-- The status has been `InProgress` at some point of the run (the
initial state included). -/
def Task.everInProgress (t : Task) (ops : List TaskOp) : Prop :=
  ∃ s ∈ t.statesAfter ops, s.status = TaskStatus.InProgress

/-!
## Helper lemmas

Field-effect lemmas for the task operations, and the inductions behind
the lifecycle, aggregation and streak claims.
-/

lemma start_actual_start_time (t : Task) (now : Int) :
    (t.start now).actual_start_time = some now := by
  unfold Task.start
  cases h : t.pomodoro <;> simp [h]

lemma start_actual_duration (t : Task) (now : Int) :
    (t.start now).actual_duration_minutes = t.actual_duration_minutes := by
  unfold Task.start
  cases h : t.pomodoro <;> simp [h]

lemma start_status (t : Task) (now : Int) :
    (t.start now).status = TaskStatus.InProgress := by
  unfold Task.start
  cases h : t.pomodoro <;> simp [h]

lemma pause_actual_start_time (t : Task) :
    t.pause.actual_start_time = t.actual_start_time := by
  unfold Task.pause
  split <;> rfl

lemma pause_actual_duration (t : Task) :
    t.pause.actual_duration_minutes = t.actual_duration_minutes := by
  unfold Task.pause
  split <;> rfl

lemma resume_actual_start_time (t : Task) (now : Int) :
    (t.resume now).actual_start_time = t.actual_start_time := by
  unfold Task.resume
  split <;> rfl

lemma resume_actual_duration (t : Task) (now : Int) :
    (t.resume now).actual_duration_minutes = t.actual_duration_minutes := by
  unfold Task.resume
  split <;> rfl

lemma complete_actual_start_time (t : Task) (now : Int) :
    (t.complete now).actual_start_time = t.actual_start_time := by
  unfold Task.complete
  cases h : t.actual_start_time <;> simp [h]

lemma complete_duration_isSome (t : Task) (now : Int) :
    (t.complete now).actual_duration_minutes.isSome
      = (t.actual_duration_minutes.isSome || t.actual_start_time.isSome) := by
  unfold Task.complete
  cases h : t.actual_start_time <;> simp [h]

lemma skip_actual_start_time (t : Task) :
    t.skip.actual_start_time = t.actual_start_time := rfl

lemma skip_actual_duration (t : Task) :
    t.skip.actual_duration_minutes = t.actual_duration_minutes := rfl

lemma pause_noop (t : Task) (h : t.status ≠ TaskStatus.InProgress) :
    t.pause = t := by
  unfold Task.pause
  rw [if_neg h]

lemma resume_noop (t : Task) (now : Int) (h : t.status ≠ TaskStatus.Paused) :
    t.resume now = t := by
  unfold Task.resume
  rw [if_neg h]

lemma complete_status (t : Task) (now : Int) :
    (t.complete now).status = TaskStatus.Completed := by
  unfold Task.complete
  cases h : t.actual_start_time <;> simp [h]

lemma skip_status (t : Task) : t.skip.status = TaskStatus.Skipped := rfl

lemma runOps_cons (t : Task) (op : TaskOp) (rest : List TaskOp) :
    t.runOps (op :: rest) = (t.applyOp op).runOps rest := rfl

lemma runOps_presence (ops : List TaskOp) : ∀ t : Task,
    ((t.runOps ops).actual_start_time.isSome
        = (t.actual_start_time.isSome || hasStartOp ops))
    ∧ ((t.runOps ops).actual_duration_minutes.isSome
        = (t.actual_duration_minutes.isSome
            || completeAfterStartAux t.actual_start_time.isSome ops)) := by
  induction ops with
  | nil =>
      intro t
      simp [Task.runOps, hasStartOp, completeAfterStartAux]
  | cons op rest ih =>
      intro t
      obtain ⟨ih1, ih2⟩ := ih (t.applyOp op)
      rw [runOps_cons]
      cases op with
      | start now =>
          refine ⟨?_, ?_⟩
          · rw [ih1]
            simp [Task.applyOp, start_actual_start_time, hasStartOp, TaskOp.isStart]
          · rw [ih2]
            simp [Task.applyOp, start_actual_start_time, start_actual_duration,
              completeAfterStartAux]
      | pause =>
          refine ⟨?_, ?_⟩
          · rw [ih1]
            simp [Task.applyOp, pause_actual_start_time, hasStartOp, TaskOp.isStart]
          · rw [ih2]
            simp [Task.applyOp, pause_actual_start_time, pause_actual_duration,
              completeAfterStartAux]
      | resume now =>
          refine ⟨?_, ?_⟩
          · rw [ih1]
            simp [Task.applyOp, resume_actual_start_time, hasStartOp, TaskOp.isStart]
          · rw [ih2]
            simp [Task.applyOp, resume_actual_start_time, resume_actual_duration,
              completeAfterStartAux]
      | complete now =>
          refine ⟨?_, ?_⟩
          · rw [ih1]
            simp [Task.applyOp, complete_actual_start_time, hasStartOp, TaskOp.isStart]
          · rw [ih2]
            simp [Task.applyOp, complete_actual_start_time, complete_duration_isSome,
              completeAfterStartAux, Bool.or_assoc, Bool.or_comm]
      | skip =>
          refine ⟨?_, ?_⟩
          · rw [ih1]
            simp [Task.applyOp, skip_actual_start_time, hasStartOp, TaskOp.isStart]
          · rw [ih2]
            simp [Task.applyOp, skip_actual_start_time, skip_actual_duration,
              completeAfterStartAux]

lemma self_mem_scanl {α β : Type} (f : β → α → β) (b : β) (l : List α) :
    b ∈ List.scanl f b l := by
  cases l <;> simp [List.scanl]

lemma everIP_of_hasStart : ∀ (ops : List TaskOp) (t : Task),
    hasStartOp ops = true → t.everInProgress ops := by
  intro ops
  induction ops with
  | nil => intro t h; simp [hasStartOp] at h
  | cons op rest ih =>
      intro t h
      unfold Task.everInProgress Task.statesAfter
      rw [List.scanl_cons]
      cases hop : op.isStart with
      | true =>
          cases op with
          | start now =>
              refine ⟨t.applyOp (TaskOp.start now), ?_, ?_⟩
              · exact List.mem_cons_of_mem _ (self_mem_scanl _ _ _)
              · exact start_status t now
          | pause => simp [TaskOp.isStart] at hop
          | resume now => simp [TaskOp.isStart] at hop
          | complete now => simp [TaskOp.isStart] at hop
          | skip => simp [TaskOp.isStart] at hop
      | false =>
          have hrest : hasStartOp rest = true := by
            simp [hasStartOp, hop] at h
            simpa [hasStartOp] using h
          obtain ⟨s, hs, hsip⟩ := ih (t.applyOp op) hrest
          exact ⟨s, List.mem_cons_of_mem _ hs, hsip⟩

lemma no_IP_without_start : ∀ (ops : List TaskOp) (t : Task),
    hasStartOp ops = false →
    t.status ≠ TaskStatus.InProgress → t.status ≠ TaskStatus.Paused →
    ∀ s ∈ t.statesAfter ops,
      s.status ≠ TaskStatus.InProgress ∧ s.status ≠ TaskStatus.Paused := by
  intro ops
  induction ops with
  | nil =>
      intro t _ hip hp s hs
      simp [Task.statesAfter, List.scanl] at hs
      exact hs ▸ ⟨hip, hp⟩
  | cons op rest ih =>
      intro t h hip hp s hs
      have hop : op.isStart = false := by
        cases his : op.isStart
        · rfl
        · simp [hasStartOp, his] at h
      have hrest : hasStartOp rest = false := by
        simp [hasStartOp] at h ⊢
        exact h.2
      unfold Task.statesAfter at hs
      rw [List.scanl_cons] at hs
      rcases List.mem_cons.mp hs with heq | hmem
      · exact heq ▸ ⟨hip, hp⟩
      · refine ih (t.applyOp op) hrest ?_ ?_ s hmem
        all_goals
          cases op with
          | start now => simp [TaskOp.isStart] at hop
          | pause =>
              simp [Task.applyOp, pause_noop t hip]
              first | exact hip | exact hp
          | resume now =>
              simp [Task.applyOp, resume_noop t now hp]
              first | exact hip | exact hp
          | complete now =>
              simp [Task.applyOp, complete_status]
          | skip =>
              simp [Task.applyOp, skip_status]

lemma find?_congr {α : Type} (p q : α → Bool) :
    ∀ l : List α, (∀ a ∈ l, p a = q a) → l.find? p = l.find? q := by
  intro l
  induction l with
  | nil => intro _; rfl
  | cons a l ih =>
      intro h
      have hpa : p a = q a := h a (List.mem_cons_self a l)
      cases hq : q a with
      | true =>
          rw [List.find?_cons_of_pos _ (hpa.trans hq), List.find?_cons_of_pos _ hq]
      | false =>
          rw [List.find?_cons_of_neg, List.find?_cons_of_neg]
          · exact ih fun b hb => h b (List.mem_cons_of_mem a hb)
          · simp [hq]
          · simp [hpa, hq]

lemma conflict_iff_overlap (s : Schedule) (t1 t2 : Task)
    (h1 : t1.wellFormed) (h2 : t2.wellFormed) :
    (s.has_time_conflict t1 t2 = true ↔ specOverlap t1 t2) := by
  unfold Task.wellFormed at h1 h2
  unfold Schedule.has_time_conflict specOverlap
  simp only [decide_eq_true_eq]
  constructor
  · rintro (⟨ha, hb⟩ | ⟨ha, hb⟩ | ⟨ha, hb⟩) <;> exact ⟨by omega, by omega⟩
  · rintro ⟨ha, hb⟩
    omega

lemma update_best_mono (s : StreakInfo) (rate : ℚ) (now : Int) :
    s.best_streak ≤ (s.update rate now).best_streak := by
  unfold StreakInfo.update
  split_ifs with h
  · show s.best_streak ≤ (if s.best_streak < s.current_streak + 1
      then s.current_streak + 1 else s.best_streak)
    split_ifs <;> omega
  · exact le_refl _

lemma run_best_mono (l : List (ℚ × Int)) : ∀ s : StreakInfo,
    s.best_streak ≤ (s.run l).best_streak := by
  induction l with
  | nil => intro s; simp [StreakInfo.run]
  | cons p l ih =>
      intro s
      have h1 := update_best_mono s p.1 p.2
      have h2 := ih (s.update p.1 p.2)
      unfold StreakInfo.run at h2 ⊢
      rw [List.foldl_cons]
      exact le_trans h1 h2

lemma accumulate_foldl (ts : List Task) : ∀ acc : DailyAccountability,
    ((ts.foldl DailyAccountability.accumulate acc).date = acc.date)
    ∧ ((ts.foldl DailyAccountability.accumulate acc).total_planned
        = acc.total_planned + (ts.map (fun t => t.estimated_duration_minutes)).sum)
    ∧ ((ts.foldl DailyAccountability.accumulate acc).total_earned
        = acc.total_earned
          + (ts.map (fun t => (TimeAccountability.from_task t).earned_time)).sum)
    ∧ ((ts.foldl DailyAccountability.accumulate acc).total_wasted
        = acc.total_wasted
          + (ts.map (fun t => (TimeAccountability.from_task t).wasted_time)).sum)
    ∧ ((ts.foldl DailyAccountability.accumulate acc).total_bonus
        = acc.total_bonus
          + (ts.map (fun t => (TimeAccountability.from_task t).bonus_time)).sum)
    ∧ ((ts.foldl DailyAccountability.accumulate acc).total_penalty
        = acc.total_penalty
          + (ts.map (fun t => (TimeAccountability.from_task t).penalty_time)).sum) := by
  induction ts with
  | nil => intro acc; simp
  | cons t ts ih =>
      intro acc
      obtain ⟨h0, h1, h2, h3, h4, h5⟩ := ih (acc.accumulate t)
      simp only [List.foldl_cons, List.map_cons, List.sum_cons]
      refine ⟨?_, ?_, ?_, ?_, ?_, ?_⟩
      · rw [h0]; rfl
      · rw [h1]; show acc.total_planned + t.estimated_duration_minutes + _ = _; omega
      · rw [h2]
        show acc.total_earned + (TimeAccountability.from_task t).earned_time + _ = _
        omega
      · rw [h3]
        show acc.total_wasted + (TimeAccountability.from_task t).wasted_time + _ = _
        omega
      · rw [h4]
        show acc.total_bonus + (TimeAccountability.from_task t).bonus_time + _ = _
        omega
      · rw [h5]
        show acc.total_penalty + (TimeAccountability.from_task t).penalty_time + _ = _
        omega

/-!
## Claim theorems
-/

/-- C1: the claimed overrun rule earned = max(0, estimated − overrun) does
not hold.  A completed task with estimate 10 and recorded actual duration
25 has overrun 15; the claim demands earned = max(0, 10 − 15) = 0, but
`TimeAccountability::from_task` computes `estimated.saturating_sub(penalty)`
on `i64`, which saturates at the `i64` bounds rather than at 0 and returns
earned_time = −5.  (`Schedule::total_earned` clamps the same quantity with
`.max(0)`, so the claimed clamping is evidently the intent.) -/
theorem from_task_overrun_earned_goes_negative :
    (TimeAccountability.from_task
        { Task.new "t1" "Overrun" 0 10 with
            status := TaskStatus.Completed
            actual_duration_minutes := some 25 }
      = { earned_time := -5, wasted_time := 0, bonus_time := 0, penalty_time := 15 })
    ∧ max (0 : Int) (10 - (25 - 10)) = 0 := by
  constructor <;> decide

/-- C2, counterexample: the code's conflict test is not the claimed
half-open overlap rule on all tasks.  Adding a zero-length task [0,0) to a
schedule holding the task A = [0,60) is rejected with a conflict naming A,
although the claimed rule s1 < e2 AND s2 < e1 does not hold (0 < 0 fails). -/
theorem add_task_zero_length_interval_cex :
    (Schedule.add_task { Schedule.new 0 with tasks := [Task.new "a" "A" 0 60] }
        (Task.new "b" "B" 0 0)
      = Except.error "Time conflict with task: A")
    ∧ ¬ specOverlap (Task.new "b" "B" 0 0) (Task.new "a" "A" 0 60) :=
  ⟨by rfl, by decide⟩

/-- C2, amended: restricted to tasks with nonempty planned intervals
(start < end), `Schedule::has_time_conflict` coincides with the half-open
overlap rule s1 < e2 AND s2 < e1 (so exact abutment does not conflict),
and `Schedule::add_task` rejects with an error naming the first
overlapping task in list order, appending the task when none overlaps. -/
theorem add_task_first_conflict_spec (s : Schedule) (task : Task)
    (htask : task.wellFormed) (hall : ∀ t ∈ s.tasks, t.wellFormed) :
    (∀ t2 : Task, t2.wellFormed →
        (s.has_time_conflict task t2 = true ↔ specOverlap task t2))
    ∧ (s.add_task task =
        match s.tasks.find? (fun e => decide (specOverlap task e)) with
        | some e => Except.error (String.append "Time conflict with task: " e.title)
        | none => Except.ok { s with tasks := s.tasks ++ [task] }) := by
  refine ⟨fun t2 h2 => conflict_iff_overlap s task t2 htask h2, ?_⟩
  unfold Schedule.add_task
  have hfind : s.tasks.find? (fun e => s.has_time_conflict task e)
      = s.tasks.find? (fun e => decide (specOverlap task e)) := by
    apply find?_congr
    intro e he
    refine Bool.eq_iff_iff.mpr ?_
    simp only [decide_eq_true_eq]
    exact conflict_iff_overlap s task e htask (hall e he)
  rw [hfind]

/-- C2, witness: a task abutting the end of the only existing task
([60,120) after [0,60)) is accepted and appended. -/
theorem add_task_first_conflict_spec_witness :
    Schedule.add_task { Schedule.new 0 with tasks := [Task.new "a" "A" 0 60] }
        (Task.new "b" "B" 60 120)
      = Except.ok { Schedule.new 0 with
          tasks := [Task.new "a" "A" 0 60, Task.new "b" "B" 60 120] } := by
  have h := (add_task_first_conflict_spec
    { Schedule.new 0 with tasks := [Task.new "a" "A" 0 60] }
    (Task.new "b" "B" 60 120) (by decide) (by decide)).2
  exact h.trans (by rfl)

/-- C3, counterexample: the claimed invariant "actual_duration is present
iff status = Completed" fails: completing a freshly created task that was
never started yields status Completed with actual_duration still absent. -/
theorem complete_without_start_breaks_duration_iff :
    ((Task.new "t3" "Unstarted" 0 60).runOps [TaskOp.complete 10]).status
        = TaskStatus.Completed
    ∧ ((Task.new "t3" "Unstarted" 0 60).runOps
        [TaskOp.complete 10]).actual_duration_minutes = none := by
  constructor <;> decide

/-- C3, amended: for every task freshly created by `Task::new` and every
sequence of lifecycle operations, actual_start is present iff the sequence
contains a start call, which holds iff the status has at some point been
InProgress; and actual_duration is present iff some complete call occurs
after (not necessarily immediately after) a start call. -/
theorem lifecycle_presence_spec (id title : String) (st en : Int)
    (ops : List TaskOp) :
    (((Task.new id title st en).runOps ops).actual_start_time.isSome
        = hasStartOp ops)
    ∧ (((Task.new id title st en).runOps ops).actual_duration_minutes.isSome
        = completeAfterStart ops)
    ∧ ((Task.new id title st en).everInProgress ops ↔ hasStartOp ops = true) := by
  obtain ⟨h1, h2⟩ := runOps_presence ops (Task.new id title st en)
  refine ⟨by simpa [Task.new] using h1,
    by simpa [Task.new, completeAfterStart] using h2, ?_, ?_⟩
  · intro hev
    cases hstart : hasStartOp ops with
    | true => rfl
    | false =>
        obtain ⟨s, hs, hip⟩ := hev
        exact absurd hip
          (no_IP_without_start ops (Task.new id title st en) hstart
            (by simp [Task.new]) (by simp [Task.new]) s hs).1
  · exact fun hstart => everIP_of_hasStart ops (Task.new id title st en) hstart

/-- C4, counterexample: a second call to start does NOT leave actual_start
unchanged.  Starting at instant 0, pausing, and starting again at instant
5 overwrites actual_start from some 0 to some 5. -/
theorem second_start_overwrites_actual_start :
    ((((Task.new "t4" "Resumed" 0 60).start 0).pause).start 5).actual_start_time
        = some 5
    ∧ (((Task.new "t4" "Resumed" 0 60).start 0).pause).actual_start_time
        = some 0 := by
  refine ⟨start_actual_start_time _ 5, ?_⟩
  rw [pause_actual_start_time, start_actual_start_time]

/-- C4, amended: every call to `Task::start` records actual_start = now
(overwriting any earlier value, not only on the very first call); when a
tracker already exists, start keeps it and only restarts its active slice
(sets current_start = now), leaving every other tracker field unchanged
rather than recreating the tracker. -/
theorem start_records_now_and_preserves_tracker (t : Task) (now : Int) :
    ((t.start now).actual_start_time = some now)
    ∧ (∀ sess, t.pomodoro = some sess →
        (t.start now).pomodoro = some { sess with current_start := some now }) := by
  refine ⟨start_actual_start_time t now, ?_⟩
  intro sess hsess
  unfold Task.start
  simp [hsess, PomodoroSession.start_pomodoro]

/-- C4, witness: starting a paused task with an existing tracker at
instant 5 stamps actual_start = 5 and only refreshes the tracker's
current_start. -/
theorem start_records_now_and_preserves_tracker_witness :
    (({ Task.new "w4" "W" 0 60 with
          status := TaskStatus.Paused
          pomodoro := some (PomodoroSession.new 60) }.start 5).actual_start_time
        = some 5)
    ∧ (({ Task.new "w4" "W" 0 60 with
          status := TaskStatus.Paused
          pomodoro := some (PomodoroSession.new 60) }.start 5).pomodoro
        = some { PomodoroSession.new 60 with current_start := some 5 }) :=
  ⟨(start_records_now_and_preserves_tracker _ 5).1,
   (start_records_now_and_preserves_tracker _ 5).2 (PomodoroSession.new 60) rfl⟩

/-- C5: `Task::complete` in any prior state sets status = Completed and
actual_end = now; when actual_start is present it records
actual_duration = now − start (whole minutes), and when the task was never
started actual_duration is left untouched (hence remains absent). -/
theorem complete_sets_status_end_duration (t : Task) (now : Int) :
    ((t.complete now).status = TaskStatus.Completed)
    ∧ ((t.complete now).actual_end_time = some now)
    ∧ (∀ s, t.actual_start_time = some s →
        (t.complete now).actual_duration_minutes = some (now - s))
    ∧ (t.actual_start_time = none →
        (t.complete now).actual_duration_minutes = t.actual_duration_minutes) := by
  unfold Task.complete
  cases h : t.actual_start_time <;> simp [h]

/-- C5, witness: a task started at 0 and completed at 45 records an actual
duration of 45 minutes. -/
theorem complete_sets_status_end_duration_witness :
    (((Task.new "w5" "W" 0 30).start 0).complete 45).actual_duration_minutes
      = some 45 := by
  have h := (complete_sets_status_end_duration
    ((Task.new "w5" "W" 0 30).start 0) 45).2.2.1 0 (by
      rw [start_actual_start_time])
  simpa using h

/-- C6: `DailyAccountability::from_tasks` sums each of the four per-task
quantities and the planned estimates; the efficiency score is
(earned + bonus − penalty) / planned × 100 (0 when nothing is planned);
the grade brackets are 95/90/80/70/60; and the worked example
(planned 240, earned 200, bonus 30, penalty 10) scores 275/3 ≈ 91.67 with
grade A. -/
theorem daily_accountability_totals_score_grade (date : Int) (ts : List Task)
    (d : DailyAccountability) :
    ((DailyAccountability.from_tasks date ts).total_planned
        = (ts.map (fun t => t.estimated_duration_minutes)).sum)
    ∧ ((DailyAccountability.from_tasks date ts).total_earned
        = (ts.map (fun t => (TimeAccountability.from_task t).earned_time)).sum)
    ∧ ((DailyAccountability.from_tasks date ts).total_wasted
        = (ts.map (fun t => (TimeAccountability.from_task t).wasted_time)).sum)
    ∧ ((DailyAccountability.from_tasks date ts).total_bonus
        = (ts.map (fun t => (TimeAccountability.from_task t).bonus_time)).sum)
    ∧ ((DailyAccountability.from_tasks date ts).total_penalty
        = (ts.map (fun t => (TimeAccountability.from_task t).penalty_time)).sum)
    ∧ (d.total_planned = 0 → d.efficiency_score = 0)
    ∧ (d.total_planned ≠ 0 →
        d.efficiency_score
          = ((d.total_earned + d.total_bonus - d.total_penalty : Int) : ℚ)
              / (d.total_planned : ℚ) * 100)
    ∧ (95 ≤ d.efficiency_score → d.grade = "A+")
    ∧ (90 ≤ d.efficiency_score ∧ d.efficiency_score < 95 → d.grade = "A")
    ∧ (80 ≤ d.efficiency_score ∧ d.efficiency_score < 90 → d.grade = "B")
    ∧ (70 ≤ d.efficiency_score ∧ d.efficiency_score < 80 → d.grade = "C")
    ∧ (60 ≤ d.efficiency_score ∧ d.efficiency_score < 70 → d.grade = "D")
    ∧ (d.efficiency_score < 60 → d.grade = "F")
    ∧ (DailyAccountability.efficiency_score
        { date := 0, total_planned := 240, total_earned := 200,
          total_wasted := 0, total_bonus := 30, total_penalty := 10 } = 275 / 3
      ∧ DailyAccountability.grade
          { date := 0, total_planned := 240, total_earned := 200,
            total_wasted := 0, total_bonus := 30, total_penalty := 10 } = "A") := by
  obtain ⟨h0, h1, h2, h3, h4, h5⟩ :=
    accumulate_foldl ts (DailyAccountability.new date)
  refine ⟨?_, ?_, ?_, ?_, ?_, ?_, ?_, ?_, ?_, ?_, ?_, ?_, ?_, ?_, ?_⟩
  · rw [DailyAccountability.from_tasks, h1]; simp [DailyAccountability.new]
  · rw [DailyAccountability.from_tasks, h2]; simp [DailyAccountability.new]
  · rw [DailyAccountability.from_tasks, h3]; simp [DailyAccountability.new]
  · rw [DailyAccountability.from_tasks, h4]; simp [DailyAccountability.new]
  · rw [DailyAccountability.from_tasks, h5]; simp [DailyAccountability.new]
  · intro h; unfold DailyAccountability.efficiency_score; rw [if_pos h]
  · intro h; unfold DailyAccountability.efficiency_score; rw [if_neg h]
  · intro h; unfold DailyAccountability.grade; rw [if_pos h]
  · rintro ⟨ha, hb⟩
    unfold DailyAccountability.grade
    rw [if_neg (by linarith), if_pos ha]
  · rintro ⟨ha, hb⟩
    unfold DailyAccountability.grade
    rw [if_neg (by linarith), if_neg (by linarith), if_pos ha]
  · rintro ⟨ha, hb⟩
    unfold DailyAccountability.grade
    rw [if_neg (by linarith), if_neg (by linarith), if_neg (by linarith), if_pos ha]
  · rintro ⟨ha, hb⟩
    unfold DailyAccountability.grade
    rw [if_neg (by linarith), if_neg (by linarith), if_neg (by linarith),
      if_neg (by linarith), if_pos ha]
  · intro h
    unfold DailyAccountability.grade
    rw [if_neg (by linarith), if_neg (by linarith), if_neg (by linarith),
      if_neg (by linarith), if_neg (by linarith)]
  · norm_num [DailyAccountability.efficiency_score]
  · norm_num [DailyAccountability.grade, DailyAccountability.efficiency_score]

/-- C6, witness: a day with 100 planned and 100 earned minutes scores 100
and grades A+. -/
theorem daily_accountability_totals_score_grade_witness :
    DailyAccountability.grade
      { date := 0, total_planned := 100, total_earned := 100,
        total_wasted := 0, total_bonus := 0, total_penalty := 0 } = "A+" := by
  refine (daily_accountability_totals_score_grade 0 []
    { date := 0, total_planned := 100, total_earned := 100,
      total_wasted := 0, total_bonus := 0, total_penalty := 0
      }).2.2.2.2.2.2.2.1 ?_
  norm_num [DailyAccountability.efficiency_score]

/-- C7: `Schedule::total_wasted` evaluated at the read instant now sums
the estimates of exactly the non-completed tasks whose planned end is
strictly in the past (whatever their status), and
`Schedule::calculate_stats` writes the five cached stats fields while
leaving the cached total_wasted field untouched. -/
theorem total_wasted_recomputed_not_cached (s : Schedule) (now : Int) :
    (s.total_wasted now
      = ((s.tasks.filter (fun t =>
            decide (t.status ≠ TaskStatus.Completed ∧ t.end_time < now))).map
          (fun t => t.estimated_duration_minutes)).sum)
    ∧ (s.calculate_stats.cached_total_wasted = s.cached_total_wasted)
    ∧ (s.calculate_stats.cached_completion_rate = some s.completion_rate)
    ∧ (s.calculate_stats.cached_efficiency_score = some s.efficiency_score)
    ∧ (s.calculate_stats.cached_total_earned = some s.total_earned)
    ∧ (s.calculate_stats.cached_total_bonus = some s.total_bonus)
    ∧ (s.calculate_stats.cached_total_penalty = some s.total_penalty) := by
  refine ⟨?_, rfl, rfl, rfl, rfl, rfl, rfl⟩
  unfold Schedule.total_wasted
  simp only [ite_self]

/-- C8: `StreakInfo::update` extends the streak (and raises the best
streak to the new current streak when it exceeds the old best) exactly
when the completion rate is at least 70, resets the current streak to 0
otherwise, always stamps last_update = now; the best streak never
decreases over any sequence of updates; and the example sequence
[80, 90, 50] produces current streaks [1, 2, 0] with best streak 2. -/
theorem streak_update_spec (s : StreakInfo) (rate : ℚ) (now : Int)
    (l : List (ℚ × Int)) :
    ((s.update rate now).last_update = now)
    ∧ (70 ≤ rate →
        (s.update rate now).current_streak = s.current_streak + 1
        ∧ (s.update rate now).best_streak = max s.best_streak (s.current_streak + 1))
    ∧ (rate < 70 →
        (s.update rate now).current_streak = 0
        ∧ (s.update rate now).best_streak = s.best_streak)
    ∧ (s.best_streak ≤ (s.run l).best_streak)
    ∧ (((StreakInfo.new 0).run [(80, 1)]).current_streak = 1
        ∧ ((StreakInfo.new 0).run [(80, 1), (90, 2)]).current_streak = 2
        ∧ ((StreakInfo.new 0).run [(80, 1), (90, 2), (50, 3)]).current_streak = 0
        ∧ ((StreakInfo.new 0).run [(80, 1), (90, 2), (50, 3)]).best_streak = 2) := by
  refine ⟨?_, ?_, ?_, run_best_mono l s, by decide, by decide, by decide, by decide⟩
  · unfold StreakInfo.update
    split_ifs <;> rfl
  · intro h
    unfold StreakInfo.update
    rw [if_pos h]
    refine ⟨rfl, ?_⟩
    show (if s.best_streak < s.current_streak + 1 then s.current_streak + 1
      else s.best_streak) = max s.best_streak (s.current_streak + 1)
    split_ifs <;> omega
  · intro h
    unfold StreakInfo.update
    rw [if_neg (not_le.mpr h)]
    exact ⟨rfl, rfl⟩

/-- C8, witness: one update at rate 80 from a fresh streak yields a
current streak of 1. -/
theorem streak_update_spec_witness :
    ((StreakInfo.new 0).update 80 1).current_streak = 1 :=
  ((streak_update_spec (StreakInfo.new 0) 80 1 []).2.1 (by norm_num)).1

/-- C9: on the very first start call (no tracker yet), with a positive
effective slice length (the custom pomodoro length, defaulting to 25) and
an estimate within the u32-exact range, the created tracker has
total_slices = max(ceil(estimated / slice_length), 1), carries the
effective slice length, and its active slice starts at now. -/
theorem first_start_total_pomodoros_spec (t : Task) (now : Int)
    (hfirst : t.pomodoro = none)
    (hd : 0 < t.custom_pomodoro_duration.getD 25)
    (hest : t.estimated_duration_minutes ≤ 2 ^ 32 - 1) :
    ∃ sess, (t.start now).pomodoro = some sess
      ∧ ((sess.total_pomodoros : Int)
          = max (Int.ceil ((t.estimated_duration_minutes : ℚ)
              / ((t.custom_pomodoro_duration.getD 25 : Nat) : ℚ))) 1)
      ∧ sess.pomodoro_duration = t.custom_pomodoro_duration.getD 25
      ∧ sess.current_start = some now := by
  have hceil : Int.ceil ((t.estimated_duration_minutes : ℚ)
      / ((t.custom_pomodoro_duration.getD 25 : Nat) : ℚ)) ≤ 2 ^ 32 - 1 := by
    rcases le_or_lt t.estimated_duration_minutes 0 with he | he
    · have hq : (t.estimated_duration_minutes : ℚ)
          / ((t.custom_pomodoro_duration.getD 25 : Nat) : ℚ) ≤ 0 :=
        div_nonpos_iff.mpr (Or.inr ⟨by exact_mod_cast he, by positivity⟩)
      calc Int.ceil ((t.estimated_duration_minutes : ℚ)
            / ((t.custom_pomodoro_duration.getD 25 : Nat) : ℚ))
          ≤ Int.ceil (0 : ℚ) := Int.ceil_mono hq
        _ = 0 := by simp
        _ ≤ 2 ^ 32 - 1 := by norm_num
    · have h1q : (1 : ℚ) ≤ ((t.custom_pomodoro_duration.getD 25 : Nat) : ℚ) := by
        exact_mod_cast hd
      have hq : (t.estimated_duration_minutes : ℚ)
          / ((t.custom_pomodoro_duration.getD 25 : Nat) : ℚ)
            ≤ (t.estimated_duration_minutes : ℚ) :=
        div_le_self (by exact_mod_cast he.le) h1q
      calc Int.ceil ((t.estimated_duration_minutes : ℚ)
            / ((t.custom_pomodoro_duration.getD 25 : Nat) : ℚ))
          ≤ Int.ceil ((t.estimated_duration_minutes : ℚ)) := Int.ceil_mono hq
        _ = t.estimated_duration_minutes := Int.ceil_intCast _
        _ ≤ 2 ^ 32 - 1 := hest
  unfold Task.start
  simp only [hfirst]
  refine ⟨_, rfl, ?_, rfl, rfl⟩
  show ((max (ceilDivF64asU32 t.estimated_duration_minutes
      (t.custom_pomodoro_duration.getD 25)) 1 : Nat) : Int) = _
  unfold ceilDivF64asU32
  generalize Int.ceil ((t.estimated_duration_minutes : ℚ)
      / ((t.custom_pomodoro_duration.getD 25 : Nat) : ℚ)) = c at hceil ⊢
  have hpow : (2 : Int) ^ 32 - 1 = 4294967295 := by norm_num
  have hpow2 : (2 : Nat) ^ 32 - 1 = 4294967295 := by norm_num
  rw [hpow2]
  rw [hpow] at hceil
  omega

/-- C9, witness: a 50-minute task with the default 25-minute slice length
gets 2 total slices on its first start. -/
theorem first_start_total_pomodoros_spec_witness :
    ∃ sess, ((Task.new "w9" "W" 0 50).start 7).pomodoro = some sess
      ∧ sess.total_pomodoros = 2
      ∧ sess.pomodoro_duration = 25
      ∧ sess.current_start = some 7 := by
  obtain ⟨sess, h1, h2, h3, h4⟩ :=
    first_start_total_pomodoros_spec (Task.new "w9" "W" 0 50) 7 rfl
      (by decide) (by decide)
  have hceil : Int.ceil (((50 : Int) : ℚ) / ((25 : Nat) : ℚ)) = 2 := by
    rw [Int.ceil_eq_iff]
    norm_num
  refine ⟨sess, h1, ?_, h3, h4⟩
  have h2c : (sess.total_pomodoros : Int) = 2 := by
    rw [h2]
    show max (Int.ceil (((50 : Int) : ℚ) / ((25 : Nat) : ℚ))) 1 = 2
    rw [hceil]
    norm_num
  exact_mod_cast h2c

/-- C10: on a task that is not InProgress, `Task::pause` changes nothing
at all (and returns no error, the Rust function returning unit); likewise
`Task::resume` on a task that is not Paused changes nothing. -/
theorem pause_resume_ignore_illegal_states (t : Task) (now : Int) :
    (t.status ≠ TaskStatus.InProgress → t.pause = t)
    ∧ (t.status ≠ TaskStatus.Paused → t.resume now = t) :=
  ⟨fun h => pause_noop t h, fun h => resume_noop t now h⟩

/-- C10, witness: pausing or resuming a fresh (Pending) task is the
identity. -/
theorem pause_resume_ignore_illegal_states_witness :
    ((Task.new "w10" "W" 0 30).pause = Task.new "w10" "W" 0 30)
    ∧ ((Task.new "w10" "W" 0 30).resume 7 = Task.new "w10" "W" 0 30) :=
  ⟨(pause_resume_ignore_illegal_states (Task.new "w10" "W" 0 30) 7).1 (by decide),
   (pause_resume_ignore_illegal_states (Task.new "w10" "W" 0 30) 7).2 (by decide)⟩

end VibeScheduler
